import Mathlib

/-!
Verification of the IGMPv3 core of the click-igmp-router repository.

The C++ sources are shallowly embedded: machine integers become `Nat` with
an explicit `% 2 ^ 32` where 32-bit overflow matters, byte buffers become
`List Nat`, and the Click element state becomes an explicit state record
threaded through the handler functions.  Components of the repository that
are referenced from the sources but whose definitions are not available
(the membership filter internals and the wire serializer) are modelled
from the specification and marked as such in their doc comments.
-/

set_option maxRecDepth 100000

namespace IgmpRouter

/-- Embedding of `igmp_code_to_value` from src/elements/IgmpMessage.hh.
The C++ computes `exponent = code & 0x70` (without shifting right by 4)
and evaluates `(mantissa | 0x10) << (exponent + 3)` on a 32-bit
`unsigned int`; the shift is modelled as a `Nat` shift reduced modulo
`2 ^ 32` (for `exponent ≥ 32` the C++ shift overflows the 32-bit width,
which we model as the value modulo `2 ^ 32`). -/
def igmp_code_to_value (code : Nat) : Nat :=
  if code < 128 then
    code
  else
    let mantissa := code &&& 0x0F
    let exponent := code &&& 0x70
    ((mantissa ||| 0x10) <<< (exponent + 3)) % 2 ^ 32

/-- The decoding formula that the doc comment of `igmp_code_to_value`
(and the spec) state: the exponent is the three-bit field in bits 4 to 6
of the code, i.e. `(code >> 4) & 0x7`. -/
def igmp_code_to_value_as_documented (code : Nat) : Nat :=
  if code < 128 then
    code
  else
    let mantissa := code &&& 0x0F
    let exponent := (code >>> 4) &&& 0x7
    (mantissa ||| 0x10) <<< (exponent + 3)

/-- Embedding of the search loop inside `igmp_value_to_code`
(src/elements/IgmpMessage.hh): `for (uint8_t code = 128; code < 255;
code++)`, returning `code` on an exact match, `code - 1` once the decoded
value overshoots, and `255` when the loop runs out.  The loop is driven by
fuel equal to the number of remaining iterations (`255 - code`). -/
def igmp_value_to_code_loop (value : Nat) : Nat → Nat → Nat
  | 0, _ => 255
  | fuel + 1, code =>
    let code_val := igmp_code_to_value code
    if code_val = value then
      code
    else if value < code_val then
      code - 1
    else
      igmp_value_to_code_loop value fuel (code + 1)

/-- Embedding of `igmp_value_to_code` from src/elements/IgmpMessage.hh. -/
def igmp_value_to_code (value : Nat) : Nat :=
  if value < 128 then
    value
  else
    igmp_value_to_code_loop value 127 128

/-- Codes below 128 decode to themselves. -/
theorem igmp_code_to_value_of_lt (c : Nat) (h : c < 128) :
    igmp_code_to_value c = c := by
  simp [igmp_code_to_value, h]

/-- On the band of codes 128 to 159 the decoder of the source is strictly
monotone (the exponent field times 16 is 0 or 16 there, so the shifts stay
inside the 32-bit width). -/
theorem igmp_code_to_value_strict_mono_mid :
    ∀ a : Nat, a < 160 → ∀ b : Nat, b < 160 → 128 ≤ a → a < b →
      igmp_code_to_value a < igmp_code_to_value b := by
  decide

/-- For codes 160 and above the shift distance `(code & 0x70) + 3` is at
least 35, so the 32-bit result of the source decoder is 0. -/
theorem igmp_code_to_value_high_eq_zero :
    ∀ c : Nat, c < 256 → 160 ≤ c → igmp_code_to_value c = 0 := by
  decide

/-- C1: `igmp_code_to_value` is claimed to return
`(mantissa | 0x10) << (exponent + 3)` with `exponent = (code >> 4) & 0x7`
for codes at and above 128.  The source instead uses
`exponent = code & 0x70`, contradicting its own doc comment: at code 144
the source yields `(0 | 0x10) << (16 + 3) = 8388608` while the documented
formula yields `(0 | 0x10) << (1 + 3) = 256`. -/
theorem igmp_code_to_value_deviates_from_documented_formula :
    igmp_code_to_value 144 = 8388608 ∧
    igmp_code_to_value_as_documented 144 = 256 ∧
    igmp_code_to_value 144 ≠ igmp_code_to_value_as_documented 144 := by
  decide

/-- Invariant-based bound for the search loop: if the code just below the
current one decodes strictly below the target value, then the loop result
decodes to at most the target value. -/
theorem igmp_value_to_code_loop_le (value : Nat) :
    ∀ fuel code : Nat, fuel + code = 255 → 128 ≤ code →
      igmp_code_to_value (code - 1) < value →
      igmp_code_to_value (igmp_value_to_code_loop value fuel code) ≤ value := by
  intro fuel
  induction fuel with
  | zero =>
    intro code _ _ _
    rw [igmp_value_to_code_loop]
    rw [igmp_code_to_value_high_eq_zero 255 (by omega) (by omega)]
    exact Nat.zero_le value
  | succ f ih =>
    intro code hfc hcode hprev
    rw [igmp_value_to_code_loop]
    by_cases heq : igmp_code_to_value code = value
    · rw [if_pos heq]
      exact Nat.le_of_eq heq
    · rw [if_neg heq]
      by_cases hgt : value < igmp_code_to_value code
      · rw [if_pos hgt]
        exact Nat.le_of_lt hprev
      · rw [if_neg hgt]
        have hlt : igmp_code_to_value code < value :=
          Nat.lt_of_le_of_ne (Nat.le_of_not_lt hgt) heq
        have : code + 1 - 1 = code := by omega
        exact ih (code + 1) (by omega) (by omega) (by rw [this]; exact hlt)

/-- If the loop result decodes exactly to the target value, and the value
is at least 128, then some code in 128 to 255 decodes to the value. -/
theorem igmp_value_to_code_loop_eq_repr (value : Nat) (hv : 128 ≤ value) :
    ∀ fuel code : Nat, fuel + code = 255 → 128 ≤ code →
      igmp_code_to_value (code - 1) < value →
      igmp_code_to_value (igmp_value_to_code_loop value fuel code) = value →
      ∃ c : Nat, 128 ≤ c ∧ c ≤ 255 ∧ igmp_code_to_value c = value := by
  intro fuel
  induction fuel with
  | zero =>
    intro code _ _ _ hres
    rw [igmp_value_to_code_loop] at hres
    rw [igmp_code_to_value_high_eq_zero 255 (by omega) (by omega)] at hres
    omega
  | succ f ih =>
    intro code hfc hcode hprev hres
    rw [igmp_value_to_code_loop] at hres
    by_cases heq : igmp_code_to_value code = value
    · exact ⟨code, hcode, by omega, heq⟩
    · rw [if_neg heq] at hres
      by_cases hgt : value < igmp_code_to_value code
      · rw [if_pos hgt] at hres
        omega
      · rw [if_neg hgt] at hres
        have hlt : igmp_code_to_value code < value :=
          Nat.lt_of_le_of_ne (Nat.le_of_not_lt hgt) heq
        have hc : code + 1 - 1 = code := by omega
        exact ih (code + 1) (by omega) (by omega) (by rw [hc]; exact hlt) hres

/-- If some code `c` between the current position and 159 decodes exactly
to the target value, the loop stops at `c`: the decoder of the source is
strictly monotone on that band, so no earlier code matches or overshoots. -/
theorem igmp_value_to_code_loop_finds (value : Nat) :
    ∀ fuel code c : Nat, fuel + code = 255 → 128 ≤ code → code ≤ c →
      c ≤ 159 → igmp_code_to_value c = value →
      igmp_value_to_code_loop value fuel code = c := by
  intro fuel
  induction fuel with
  | zero =>
    intro code c hfc _ hcc hc159 _
    omega
  | succ f ih =>
    intro code c hfc hcode hcc hc159 hdec
    rw [igmp_value_to_code_loop]
    by_cases hcase : code = c
    · subst hcase
      rw [if_pos hdec]
    · have hlt : code < c := by omega
      have hmono : igmp_code_to_value code < igmp_code_to_value c :=
        igmp_code_to_value_strict_mono_mid code (by omega) c (by omega) hcode hlt
      have hne : ¬ igmp_code_to_value code = value := by omega
      have hngt : ¬ value < igmp_code_to_value code := by omega
      rw [if_neg hne, if_neg hngt]
      exact ih (code + 1) c (by omega) (by omega) (by omega) hc159 hdec

/-- C4: for every 32-bit value `v`, decoding the code produced by
`igmp_value_to_code v` gives at most `v`, with equality exactly when `v`
is representable, i.e. `v < 128` or `v` is the decoded value of some code
in 128 to 255. -/
theorem igmp_code_roundtrip (v : Nat) (hv : v < 2 ^ 32) :
    igmp_code_to_value (igmp_value_to_code v) ≤ v ∧
    (igmp_code_to_value (igmp_value_to_code v) = v ↔
      (v < 128 ∨ ∃ c : Nat, 128 ≤ c ∧ c ≤ 255 ∧ igmp_code_to_value c = v)) := by
  by_cases hsmall : v < 128
  · rw [igmp_value_to_code, if_pos hsmall, igmp_code_to_value_of_lt v hsmall]
    exact ⟨Nat.le_refl v, by simp [hsmall]⟩
  · have hv128 : 128 ≤ v := Nat.le_of_not_lt hsmall
    rw [igmp_value_to_code, if_neg hsmall]
    have hprev : igmp_code_to_value (128 - 1) < v := by
      rw [igmp_code_to_value_of_lt 127 (by omega)]
      omega
    refine ⟨igmp_value_to_code_loop_le v 127 128 rfl (by omega) hprev, ?_, ?_⟩
    · intro hres
      exact Or.inr
        (igmp_value_to_code_loop_eq_repr v hv128 127 128 rfl (by omega) hprev hres)
    · rintro (h | ⟨c, hc1, hc2, hc3⟩)
      · omega
      · by_cases chigh : 160 ≤ c
        · have := igmp_code_to_value_high_eq_zero c (by omega) chigh
          omega
        · rw [igmp_value_to_code_loop_finds v 127 128 c rfl (by omega) hc1
            (by omega) hc3]
          exact hc3

/-- Closed witness for C4 at the concrete value 200. -/
theorem igmp_code_roundtrip_witness :
    igmp_code_to_value (igmp_value_to_code 200) ≤ 200 ∧
    (igmp_code_to_value (igmp_value_to_code 200) = 200 ↔
      (200 < 128 ∨
        ∃ c : Nat, 128 ≤ c ∧ c ≤ 255 ∧ igmp_code_to_value c = 200)) :=
  igmp_code_roundtrip 200 (by norm_num)

/-- C5: decode-then-encode is value preserving for every code byte:
re-encoding the decoded value of any code yields a code with the same
decoded value. -/
theorem igmp_decode_encode_preserves_value (code : Nat) (h : code < 256) :
    igmp_code_to_value (igmp_value_to_code (igmp_code_to_value code)) =
      igmp_code_to_value code := by
  by_cases hsmall : igmp_code_to_value code < 128
  · rw [igmp_value_to_code, if_pos hsmall,
      igmp_code_to_value_of_lt _ hsmall]
  · have hv128 : 128 ≤ igmp_code_to_value code := Nat.le_of_not_lt hsmall
    have hc128 : 128 ≤ code := by
      by_contra hlt
      rw [igmp_code_to_value_of_lt code (by omega)] at hv128
      omega
    have hc159 : code ≤ 159 := by
      by_contra hhigh
      rw [igmp_code_to_value_high_eq_zero code h (by omega)] at hv128
      omega
    rw [igmp_value_to_code, if_neg hsmall,
      igmp_value_to_code_loop_finds (igmp_code_to_value code) 127 128 code rfl
        (by omega) hc128 hc159 rfl]

/-- Closed witness for C5 at the concrete code 144. -/
theorem igmp_decode_encode_preserves_value_witness :
    igmp_code_to_value (igmp_value_to_code (igmp_code_to_value 144)) =
      igmp_code_to_value 144 :=
  igmp_decode_encode_preserves_value 144 (by norm_num)

/-- Filter mode of a group record, INCLUDE or EXCLUDE (spec data model). -/
inductive IgmpFilterMode where
  | IncludeMode
  | ExcludeMode
deriving DecidableEq

/-- Modelled from the spec: `IgmpFilterRecord` is declared in
IgmpFilter.hh, which is not among the available sources; per the spec data
model a group filter state is a filter mode together with a source set. -/
structure IgmpFilterRecord where
  filter_mode : IgmpFilterMode
  source_addresses : List Nat
deriving DecidableEq

/-- Modelled from the spec: `create_igmp_join_record` is referenced from
IgmpInputHandler.cc but defined in a source that is not available; per the
spec a plain join is EXCLUDE with an empty source set. -/
def create_igmp_join_record : IgmpFilterRecord :=
  ⟨IgmpFilterMode.ExcludeMode, []⟩

/-- Modelled from the spec: `create_igmp_leave_record` is referenced from
IgmpInputHandler.cc but defined in a source that is not available; per the
spec a leave is INCLUDE with an empty source set. -/
def create_igmp_leave_record : IgmpFilterRecord :=
  ⟨IgmpFilterMode.IncludeMode, []⟩

/-- Modelled from the spec: the `IgmpFilter` class of IgmpFilter.hh is not
among the available sources; per the spec it owns the map from multicast
address to group filter state. -/
structure IgmpFilter where
  table : List (Nat × IgmpFilterRecord)
deriving DecidableEq

/-- Modelled from the spec: `IgmpFilter::listen` is not among the
available sources; per the spec it installs the given record as the state
of the group, where INCLUDE with an empty source set means the group is no
longer listened to and its entry is removed. -/
def IgmpFilter.listen (f : IgmpFilter) (addr : Nat)
    (record : IgmpFilterRecord) : IgmpFilter :=
  let removed := f.table.filter (fun p => p.1 != addr)
  if record = create_igmp_leave_record then
    ⟨removed⟩
  else
    ⟨(addr, record) :: removed⟩

/-- A report packet pushed on output 0.  IgmpMessageManip.hh, which builds
and serializes the one-record membership report, is not among the
available sources, so the packet is abstracted as the group address and
record that `IgmpInputHandler::push_listen` puts into its single group
record. -/
structure IgmpReportPacket where
  group_address : Nat
  record : IgmpFilterRecord
deriving DecidableEq

/-- The state of the IgmpInputHandler element: its membership filter. -/
structure IgmpInputHandler where
  filter : IgmpFilter
deriving DecidableEq

/-- Embedding of `IgmpInputHandler::push_listen` from
src/elements/IgmpInputHandler.cc: it first applies `filter.listen`, then
builds a one-record report and pushes it on output 0; if `Packet::make`
fails (modelled by the `alloc_ok` flag) it logs and returns without
pushing, with the filter already updated.  The returned list holds the
packets pushed on output 0 by this call. -/
def IgmpInputHandler.push_listen (self : IgmpInputHandler) (alloc_ok : Bool)
    (multicast_address : Nat) (record : IgmpFilterRecord) :
    IgmpInputHandler × List IgmpReportPacket :=
  let updated : IgmpInputHandler :=
    ⟨self.filter.listen multicast_address record⟩
  if alloc_ok then
    (updated, [⟨multicast_address, record⟩])
  else
    (updated, [])

/-- Embedding of the static handler `IgmpInputHandler::join` from
src/elements/IgmpInputHandler.cc.  `cp_va_kparse` of the TO argument is a
Click library call, modelled by an `Option Nat` holding the parsed
address; on a parse failure the handler returns -1 before touching the
filter.  The result is the int return value, the element state after the
call, and the packets pushed on output 0. -/
def IgmpInputHandler.join (parsed_to : Option Nat) (self : IgmpInputHandler)
    (alloc_ok : Bool) : Int × IgmpInputHandler × List IgmpReportPacket :=
  match parsed_to with
  | none => (-1, self, [])
  | some addr =>
    let result := self.push_listen alloc_ok addr create_igmp_join_record
    (0, result.1, result.2)

/-- Embedding of the static handler `IgmpInputHandler::leave` from
src/elements/IgmpInputHandler.cc, analogous to `join` but with a leave
record. -/
def IgmpInputHandler.leave (parsed_to : Option Nat) (self : IgmpInputHandler)
    (alloc_ok : Bool) : Int × IgmpInputHandler × List IgmpReportPacket :=
  match parsed_to with
  | none => (-1, self, [])
  | some addr =>
    let result := self.push_listen alloc_ok addr create_igmp_leave_record
    (0, result.1, result.2)

/-- C2 counterexample: joining 230.1.2.3 (address 3858825731) twice in a
row, with allocation succeeding, makes the second join call push one
packet on output 0, not none: `push_listen` pushes unconditionally. -/
theorem join_twice_second_call_emits_a_packet :
    (IgmpInputHandler.join (some 3858825731)
        (IgmpInputHandler.join (some 3858825731) ⟨⟨[]⟩⟩ true).2.1
        true).2.2.length = 1 := by
  rfl

/-- C2 amended: every join call whose address parses, with allocation
succeeding, returns 0 and pushes exactly one report packet on output 0,
regardless of the prior filter state; in particular the second of two
joins of the same group also emits a packet. -/
theorem join_always_emits_one_packet (st : IgmpInputHandler) (g : Nat) :
    (IgmpInputHandler.join (some g) st true).1 = 0 ∧
    (IgmpInputHandler.join (some g) st true).2.2.length = 1 := by
  exact ⟨rfl, rfl⟩

/-- C3 counterexample: a leave of 230.1.2.3 (address 3858825731) with no
prior join, with allocation succeeding, pushes one packet on output 0
rather than none. -/
theorem leave_without_join_emits_a_packet :
    (IgmpInputHandler.leave (some 3858825731) ⟨⟨[]⟩⟩ true).2.2.length = 1 := by
  rfl

/-- C3 amended: a leave of a group that is not in the filter leaves the
filter state unchanged (the filter mutation is a no-op), but still pushes
exactly one report packet on output 0: `push_listen` emits
unconditionally. -/
theorem leave_unjoined_keeps_filter_but_emits (st : IgmpInputHandler)
    (g : Nat) (h : st.filter.table.all (fun p => p.1 != g) = true) :
    (IgmpInputHandler.leave (some g) st true).2.1 = st ∧
    (IgmpInputHandler.leave (some g) st true).2.2.length = 1 := by
  refine ⟨?_, rfl⟩
  have hfil : st.filter.table.filter (fun p => p.1 != g) = st.filter.table :=
    List.filter_eq_self.mpr (List.all_eq_true.mp h)
  show (⟨⟨st.filter.table.filter (fun p => p.1 != g)⟩⟩ : IgmpInputHandler) = st
  rw [hfil]

/-- Closed witness for the amended C3 with one unrelated group joined. -/
theorem leave_unjoined_keeps_filter_but_emits_witness :
    (IgmpInputHandler.leave (some 3858825731)
        ⟨⟨[(3758096385, create_igmp_join_record)]⟩⟩ true).2.1 =
      ⟨⟨[(3758096385, create_igmp_join_record)]⟩⟩ ∧
    (IgmpInputHandler.leave (some 3858825731)
        ⟨⟨[(3758096385, create_igmp_join_record)]⟩⟩ true).2.2.length = 1 :=
  leave_unjoined_keeps_filter_but_emits
    ⟨⟨[(3758096385, create_igmp_join_record)]⟩⟩ 3858825731 (by decide)

/-- C7: when the TO argument of the join or leave write handler fails to
parse, the handler returns -1, the filter state is untouched, and no
packet is pushed on output 0: the early return precedes `push_listen`. -/
theorem join_leave_parse_failure_is_rejected (st : IgmpInputHandler)
    (alloc_ok : Bool) :
    IgmpInputHandler.join none st alloc_ok = (-1, st, []) ∧
    IgmpInputHandler.leave none st alloc_ok = (-1, st, []) :=
  ⟨rfl, rfl⟩

/-- C8: when packet allocation fails inside `push_listen`, nothing is
pushed on output 0, yet the filter state is exactly the state a
successful call would have produced: `filter.listen` runs before the
allocation attempt. -/
theorem push_listen_alloc_failure_keeps_state (st : IgmpInputHandler)
    (g : Nat) (record : IgmpFilterRecord) :
    (st.push_listen false g record).2 = [] ∧
    (st.push_listen false g record).1 = (st.push_listen true g record).1 ∧
    (st.push_listen false g record).1.filter = st.filter.listen g record :=
  ⟨rfl, rfl, rfl⟩

/-- Pairs a byte buffer into 16-bit words, high byte first as on the
wire; a trailing odd byte is padded with a zero low byte. -/
def igmp_checksum_words : List Nat → List Nat
  | [] => []
  | [b] => [b * 256]
  | b1 :: b2 :: rest => (b1 * 256 + b2) :: igmp_checksum_words rest

/-- One step of the 16-bit one's-complement sum with end-around carry. -/
def ones_complement_add (a b : Nat) : Nat :=
  let s := a + b
  if 65536 ≤ s then s - 65535 else s

/-- Modelled from the spec: `click_in_cksum` is part of the Click library,
not of the available sources; the spec defines the checksum as the 16-bit
one's complement of the one's-complement sum of the whole message. -/
def click_in_cksum (data : List Nat) : Nat :=
  65535 - (igmp_checksum_words data).foldl ones_complement_add 0

/-- Writes the 16-bit checksum field at byte offsets 2 and 3 of the
message (the offset of the checksum field in every IGMP header).  The
16-bit store is split into its two bytes; the split order does not affect
the verified properties. -/
def set_checksum_field (data : List Nat) (c : Nat) : List Nat :=
  (data.set 2 (c / 256 % 256)).set 3 (c % 256)

/-- Embedding of `update_igmp_checksum` from src/elements/IgmpMessage.hh:
it zeroes the checksum field, computes `click_in_cksum` over the bytes,
stores it in the field and returns it.  The result is the returned
checksum together with the buffer after the call. -/
def update_igmp_checksum (data : List Nat) : Nat × List Nat :=
  let zeroed := set_checksum_field data 0
  let c := click_in_cksum zeroed
  (c, set_checksum_field zeroed c)

/-- Embedding of `compute_igmp_checksum` from src/elements/IgmpMessage.hh:
it copies the buffer, runs `update_igmp_checksum` on the copy, frees the
copy and returns the computed checksum; the result pairs the returned
checksum with the caller buffer after the call (which the function never
writes). -/
def compute_igmp_checksum (data : List Nat) : Nat × List Nat :=
  ((update_igmp_checksum data).1, data)

/-- Writing the checksum field twice keeps only the second write. -/
theorem set_checksum_field_twice (data : List Nat) (a b : Nat) :
    set_checksum_field (set_checksum_field data a) b =
      set_checksum_field data b := by
  unfold set_checksum_field
  rw [List.set_comm _ _ _ (by omega), List.set_set, List.set_comm _ _ _
    (by omega), List.set_set]

/-- C6: after `update_igmp_checksum` has set the checksum field,
recomputing the checksum of the resulting bytes with
`compute_igmp_checksum` (which re-zeroes the field) reproduces the stored
checksum, so verification of a freshly set checksum always succeeds. -/
theorem update_then_compute_checksum_roundtrip (data : List Nat)
    (h : 4 ≤ data.length) :
    (compute_igmp_checksum (update_igmp_checksum data).2).1 =
      (update_igmp_checksum data).1 := by
  show click_in_cksum (set_checksum_field (set_checksum_field
      (set_checksum_field data 0) (click_in_cksum (set_checksum_field data 0)))
      0) = click_in_cksum (set_checksum_field data 0)
  rw [set_checksum_field_twice, set_checksum_field_twice]

/-- Closed witness for C6 on a concrete eight-byte query message. -/
theorem update_then_compute_checksum_roundtrip_witness :
    (compute_igmp_checksum
        (update_igmp_checksum [0x11, 0, 0, 0, 230, 1, 2, 3]).2).1 =
      (update_igmp_checksum [0x11, 0, 0, 0, 230, 1, 2, 3]).1 :=
  update_then_compute_checksum_roundtrip [0x11, 0, 0, 0, 230, 1, 2, 3]
    (by decide)

/-- C10: `compute_igmp_checksum` does not depend on the prior contents of
the two checksum bytes at offsets 2 and 3: two equally long buffers that
agree everywhere else get the same checksum; and the caller buffer is
unchanged by the call. -/
theorem compute_checksum_independent_of_checksum_field (d1 d2 : List Nat)
    (hlen : d1.length = d2.length)
    (hdiff : ∀ i : Nat, i ≠ 2 → i ≠ 3 → d1[i]? = d2[i]?) :
    (compute_igmp_checksum d1).1 = (compute_igmp_checksum d2).1 ∧
    (compute_igmp_checksum d1).2 = d1 := by
  refine ⟨?_, rfl⟩
  show click_in_cksum (set_checksum_field d1 0) =
    click_in_cksum (set_checksum_field d2 0)
  have hset : set_checksum_field d1 0 = set_checksum_field d2 0 := by
    apply List.ext_getElem?
    intro n
    unfold set_checksum_field
    rw [List.getElem?_set, List.getElem?_set, List.getElem?_set,
      List.getElem?_set]
    simp only [List.length_set]
    by_cases h3 : (3 : Nat) = n
    · rw [if_pos h3, if_pos h3, hlen]
    · rw [if_neg h3, if_neg h3]
      by_cases h2 : (2 : Nat) = n
      · rw [if_pos h2, if_pos h2, hlen]
      · rw [if_neg h2, if_neg h2]
        exact hdiff n (fun h => h2 h.symm) (fun h => h3 h.symm)
  rw [hset]

/-- Closed witness for C10 on two five-byte buffers differing only in the
checksum bytes. -/
theorem compute_checksum_independent_witness :
    (compute_igmp_checksum [0x22, 0, 171, 205, 9]).1 =
      (compute_igmp_checksum [0x22, 0, 0, 0, 9]).1 ∧
    (compute_igmp_checksum [0x22, 0, 171, 205, 9]).2 =
      [0x22, 0, 171, 205, 9] :=
  compute_checksum_independent_of_checksum_field
    [0x22, 0, 171, 205, 9] [0x22, 0, 0, 0, 9] (by decide)
    (fun i h2 h3 =>
      match i with
      | 0 => rfl
      | 1 => rfl
      | 2 => absurd rfl h2
      | 3 => absurd rfl h3
      | _ + 4 => rfl)

/-- Byte swap of a 16-bit quantity, as `ntohs` performs on the
little-endian hosts the element targets. -/
def ntohs (x : Nat) : Nat :=
  x % 256 * 256 + x / 256 % 256

/-- Embedding of `IgmpV3GroupRecordHeader` from
src/elements/IgmpMessage.hh; the two multi-byte fields hold the raw
16-bit and 32-bit quantities exactly as a little-endian host reads them
from the packed wire bytes. -/
structure IgmpV3GroupRecordHeader where
  type : Nat
  aux_data_length : Nat
  number_of_sources : Nat
  multicast_address : Nat

/-- Embedding of `IgmpV3GroupRecordHeader::get_payload_size`:
`sizeof(uint32_t) * (ntohs(number_of_sources) + aux_data_length)`. -/
def IgmpV3GroupRecordHeader.get_payload_size
    (h : IgmpV3GroupRecordHeader) : Nat :=
  4 * (ntohs h.number_of_sources + h.aux_data_length)

/-- Reads a packed group record header from its wire bytes on a
little-endian host: single bytes are taken as is, the 16-bit and 32-bit
fields are little-endian loads of the raw bytes. -/
def read_group_record_header (bytes : List Nat) : IgmpV3GroupRecordHeader :=
  { type := bytes.getD 0 0
  , aux_data_length := bytes.getD 1 0
  , number_of_sources := bytes.getD 2 0 + 256 * bytes.getD 3 0
  , multicast_address :=
      bytes.getD 4 0 + 256 * bytes.getD 5 0 + 65536 * bytes.getD 6 0 +
        16777216 * bytes.getD 7 0 }

/-- C9: for a group record header read from wire bytes, the payload size
is `4 * (N + aux_data_len)` where `N` is the number-of-sources field in
network byte order (`256 * byte2 + byte3`) and `aux_data_len` is byte 1;
it is computed from the fields of the record alone. -/
theorem get_payload_size_eq_network_order_formula (bytes : List Nat)
    (h2 : bytes.getD 2 0 < 256) (h3 : bytes.getD 3 0 < 256) :
    (read_group_record_header bytes).get_payload_size =
      4 * ((256 * bytes.getD 2 0 + bytes.getD 3 0) + bytes.getD 1 0) := by
  show 4 * (ntohs (bytes.getD 2 0 + 256 * bytes.getD 3 0) + bytes.getD 1 0) =
    4 * ((256 * bytes.getD 2 0 + bytes.getD 3 0) + bytes.getD 1 0)
  unfold ntohs
  omega

/-- Closed witness for C9 on a concrete record header with three sources
and one word of auxiliary data. -/
theorem get_payload_size_witness :
    (read_group_record_header [2, 1, 0, 3, 230, 1, 2, 3]).get_payload_size =
      4 * ((256 * 0 + 3) + 1) :=
  get_payload_size_eq_network_order_formula [2, 1, 0, 3, 230, 1, 2, 3]
    (by decide) (by decide)

end IgmpRouter
